import Mathlib

/-!
Shallow embedding of the CoralLabelTransfer core (src/SuperPixel.py and
src/transfer/transfer.py) and verification of the specification's claims
about it.

Modelling conventions:
* numpy uint8 pixel values are `Nat` (with `% 256` written explicitly where a
  store into a uint8 array occurs);
* a 2-D array (region-id map, ground-truth map, grayscale image) is `Img2`:
  dimensions plus a total pixel function;
* the 3-D source ndarray is `NDImg` with an explicit channel count; the model
  fixes the rank at 3, so the `len(img.shape) != 3` check of
  `SuperPixel.checkSuperPixel` ("Misshapen image.") is represented by the
  constructor `ValueReason.misshapen` but is unreachable in the model;
* Python exceptions become an `Except PyErr` result; `ValueError` (the
  recoverable `InvalidRegionError` of the spec) is distinguished from the
  uncatchable `TypeError` / `IndexError` / `AttributeError`, because
  `create_spixel` catches only `ValueError`;
* external image/descriptor collaborators (cv2.resize, ndimage.rotate,
  cv2.cvtColor, skimage hog / local_binary_pattern) are fields of a `Lib`
  structure carrying exactly their documented shape contracts;
* `numpy.histogram` and the row/column scans are translated directly.
-/

/-- A 2-D array of natural-number values (numpy 2-D ndarray). -/
structure Img2 where
  h : Nat
  w : Nat
  pix : Nat → Nat → Nat

/-- A 2-D boolean array (numpy boolean mask). -/
structure Mask2 where
  h : Nat
  w : Nat
  pix : Nat → Nat → Bool

/-- A 3-D array: height, width, channel count (numpy 3-D ndarray).
The rank is fixed at 3 in the model. -/
structure NDImg where
  h : Nat
  w : Nat
  c : Nat
  val : Nat → Nat → Nat → Nat

/-- Reasons carried by the `ValueError`s `SuperPixel` raises; each constructor
corresponds to one literal Python message:
`noData` = "No input image data given.", `misshapen` = "Misshapen image."
(unreachable here, see module comment), `tooShort` = "Input image too short.",
`tooNarrow` = "Input image too narrow.", `badChannels` = "Not enough channels
in input image.", `noRegion` = "No region found.". -/
inductive ValueReason where
  | noData | misshapen | tooShort | tooNarrow | badChannels | noRegion
  deriving DecidableEq, Repr

/-- Python exceptions relevant to the embedded code. `create_spixel` catches
only `valueError`; the others propagate and abort the caller. -/
inductive PyErr where
  | valueError (reason : ValueReason)
  | typeError
  | indexError
  | attributeError
  deriving DecidableEq, Repr

/-- Bounding box as returned by `SuperPixel.getBoundingBox`:
`((min_row, min_col), (max_row, max_col))`. -/
abbrev Bounds := (Nat × Nat) × (Nat × Nat)

/-- Python's `img.any()` on the 3-D source ndarray: some entry is nonzero. -/
def anySrc (img : NDImg) : Bool :=
  (List.range img.h).any fun r =>
    (List.range img.w).any fun cc =>
      (List.range img.c).any fun ch => img.val r cc ch != 0

/-- Embeds `SuperPixel.checkSuperPixel` (src/SuperPixel.py:161-171): sequential
validation raising `ValueError` with a specific message. -/
def checkSuperPixel (img : NDImg) : Except PyErr Unit :=
  if ¬ anySrc img then .error (.valueError .noData)
  else if img.h ≤ 20 then .error (.valueError .tooShort)
  else if img.w ≤ 20 then .error (.valueError .tooNarrow)
  else if img.c ≠ 3 then .error (.valueError .badChannels)
  else .ok ()

/-- The body of each scan loop of `SuperPixel.getBoundingBox`
(src/SuperPixel.py:46-59), for rows and columns alike: iterate `i` over
`range(n)` with state `(minE, maxE)`; on a hit set `maxE := i` and, if
`minE == 0`, set `minE := i`; on a miss after `maxE ≠ 0`, `break`.
The fuel argument counts the remaining iterations of `range(n)`. -/
def scanGo (has : Nat → Bool) : Nat → Nat → Nat → Nat → Nat × Nat
  | 0, _, minE, maxE => (minE, maxE)
  | fuel + 1, i, minE, maxE =>
    if has i then scanGo has fuel (i + 1) (if minE = 0 then i else minE) i
    else if maxE ≠ 0 then (minE, maxE)
    else scanGo has fuel (i + 1) minE maxE

/-- One full scan loop over `range(n)` starting from state `(0, 0)`. -/
def scanLoop (has : Nat → Bool) (n : Nat) : Nat × Nat :=
  scanGo has n 0 0 0

/-- Embeds `SuperPixel.getBoundingBox` (src/SuperPixel.py:38-62): row scan over the
image height testing `mask[i,:].any()`, column scan over the width testing
`mask[:,j].any()`, where `mask = (mask_img == id)`; returns
`((min_row, min_col), (max_row, max_col))`. -/
def getBoundingBox (id : Nat) (m : Img2) : Bounds :=
  let row := scanLoop (fun i => (List.range m.w).any fun j => m.pix i j == id) m.h
  let col := scanLoop (fun j => (List.range m.h).any fun i => m.pix i j == id) m.w
  ((row.1, col.1), (row.2, col.2))

/-- Embeds `SuperPixel.checkBounds` (src/SuperPixel.py:173-180): require
`0 <= min < max` on both axes (the `0 <=` half is automatic over `Nat`),
else `ValueError("No region found.")`. -/
def checkBoundsE (bd : Bounds) : Except PyErr Unit :=
  if bd.1.1 < bd.2.1 then
    if bd.1.2 < bd.2.2 then .ok ()
    else .error (.valueError .noRegion)
  else .error (.valueError .noRegion)

/-- numpy 2-D slice `m[row_min:row_max, col_min:col_max]` with python's
clamping of out-of-range stops. -/
def slice2 (m : Img2) (bd : Bounds) : Img2 :=
  { h := min bd.2.1 m.h - min bd.1.1 m.h
    w := min bd.2.2 m.w - min bd.1.2 m.w
    pix := fun r cc => m.pix (bd.1.1 + r) (bd.1.2 + cc) }

/-- numpy 3-D slice on the first two axes, channels kept. -/
def slice3 (img : NDImg) (bd : Bounds) : NDImg :=
  { h := min bd.2.1 img.h - min bd.1.1 img.h
    w := min bd.2.2 img.w - min bd.1.2 img.w
    c := img.c
    val := fun r cc ch => img.val (bd.1.1 + r) (bd.1.2 + cc) ch }

/-- Embeds `SuperPixel.cropMask` (src/SuperPixel.py:65-70): slice the id map to the
bounding box and compare with the region id. -/
def cropMask (id : Nat) (bd : Bounds) (m : Img2) : Mask2 :=
  let msk := slice2 m bd
  { h := msk.h, w := msk.w, pix := fun r cc => msk.pix r cc == id }

/-- The values of a 2-D array in row-major order. -/
def imgVals (i : Img2) : List Nat :=
  (List.range i.h).flatMap fun r => (List.range i.w).map fun cc => i.pix r cc

/-- The selection `roi[np.where(self.mask == True)]` (src/SuperPixel.py:150): the values of
`roi` at the true positions of the mask, row-major. -/
def selectedVals (roi : Img2) (mask : Mask2) : List Nat :=
  (List.range mask.h).flatMap fun r =>
    (((List.range mask.w).filter fun cc => mask.pix r cc).map fun cc => roi.pix r cc)

/-- Minimum of a list (`none` on the empty list). -/
def listMin : List Nat → Option Nat
  | [] => none
  | x :: xs => some (xs.foldl min x)

/-- Models `scipy.stats.mode` (an external collaborator) by its documented
behavior: the value with the largest count; "If there is more than one such
value, only the smallest is returned". `none` models the failure of
`mode[0][0]` on an empty selection (an uncatchable `IndexError`). -/
def npMode (l : List Nat) : Option Nat :=
  listMin (l.filter fun x => l.all fun y => decide (l.count y ≤ l.count x))

/-- Embeds `SuperPixel.findLabel` (src/SuperPixel.py:144-155): slice the ground-truth
map to the bounding box, select the pixels under the cropped mask, and take
their mode. At inference the pipeline passes `None` for the ground-truth map,
which makes the slicing raise an uncatchable `TypeError`. -/
def findLabelFn (bd : Bounds) (mask : Mask2) (lbl : Option Img2) : Except PyErr Nat :=
  match lbl with
  | none => .error .typeError
  | some l =>
    match npMode (selectedVals (slice2 l bd) mask) with
    | none => .error .indexError
    | some m => .ok m

/-- External image/descriptor collaborators used by `SuperPixel`
(cv2, scipy.ndimage, skimage), abstracted by their documented shape
contracts. `resize` is `cv2.resize(img, dsize)` with `dsize = (width,
height)`; `rotate` is `ndimage.rotate(img, theta, reshape=False)`, which
preserves the extent; `toGray`/`toHSV` are `cv2.cvtColor`, preserving the
spatial extent; `hog` is `skimage.feature.hog`, whose output length is a
function of the input dimensions (for the fixed `hog_args`); `lbp` is
`skimage.feature.local_binary_pattern`, returning an array of the same shape
as its input. -/
structure Lib where
  resize : NDImg → Nat × Nat → NDImg
  resize_h : ∀ i s, (resize i s).h = s.2
  resize_w : ∀ i s, (resize i s).w = s.1
  resize_c : ∀ i s, (resize i s).c = i.c
  rotate : NDImg → Int → NDImg
  rotate_h : ∀ i t, (rotate i t).h = i.h
  rotate_w : ∀ i t, (rotate i t).w = i.w
  rotate_c : ∀ i t, (rotate i t).c = i.c
  toGray : NDImg → Img2
  toGray_h : ∀ i, (toGray i).h = i.h
  toGray_w : ∀ i, (toGray i).w = i.w
  toHSV : NDImg → NDImg
  toHSV_h : ∀ i, (toHSV i).h = i.h
  toHSV_w : ∀ i, (toHSV i).w = i.w
  toHSV_c : ∀ i, (toHSV i).c = i.c
  hog : Img2 → List Rat
  hog_len : ∀ a b, a.h = b.h → a.w = b.w → (hog a).length = (hog b).length
  lbp : Img2 → Img2
  lbp_h : ∀ g, (lbp g).h = g.h
  lbp_w : ∀ g, (lbp g).w = g.w

/-- Maximum entry of a 2-D array (`arr.max()`; 0 for an empty array, on which
numpy would raise). -/
def imgMax (i : Img2) : Nat := (imgVals i).foldl max 0

/-- Minimum of a value list with a default for the empty case
(`arr.min()`; numpy would raise on an empty array). -/
def listMinD (vals : List Nat) (d : Nat) : Nat :=
  match vals with
  | [] => d
  | v :: t => t.foldl min v

/-- Models the `np.histogram` bin assignment for integer data, `bins` equal-width bins
over `[lo, hi]`: values outside the range are ignored, the last bin is
closed. -/
def binIdx (bins lo hi v : Nat) : Option Nat :=
  if v < lo ∨ hi < v then none
  else if hi ≤ lo then some 0
  else some (min ((v - lo) * bins / (hi - lo)) (bins - 1))

/-- The counts vector of `np.histogram(vals, bins=bins, range=(lo, hi))`;
its length is always `bins`. -/
def npHistogramCounts (vals : List Nat) (bins lo hi : Nat) : List Nat :=
  (List.range bins).map fun b => vals.countP fun v => binIdx bins lo hi v == some b

/-- Models `np.histogram(..., normed=True)`: counts divided by `total * bin_width`
so the result integrates to one (values are irrelevant to every claim; only
the length matters). -/
def histNormed (vals : List Nat) (bins lo hi : Nat) : List Rat :=
  let total : Rat := vals.length
  let width : Rat := ((hi : Rat) - (lo : Rat)) / (bins : Rat)
  (npHistogramCounts vals bins lo hi).map fun (k : Nat) => (k : Rat) / (total * width)

/-- Channel extraction `img[:,:,k]`. -/
def channelOf (i : NDImg) (k : Nat) : Img2 :=
  { h := i.h, w := i.w, pix := fun r cc => i.val r cc k }

/-- Embeds `np.histogram(hsv[:,:,k], bins=64)` (src/SuperPixel.py:99-101): 64 bins
over the data's own min/max range (numpy's default range). -/
def channelHist (img : NDImg) (k : Nat) : List Nat :=
  let vs := imgVals (channelOf img k)
  npHistogramCounts vs 64 (listMinD vs 0) (imgMax (channelOf img k))

/-- Embeds `SuperPixel.processImg` (src/SuperPixel.py:73-82): crop the source image
to the bounding box, resize to the canonical size, rotate by `theta` degrees
without reshaping. -/
def processImg (lib : Lib) (src : NDImg) (bd : Bounds) (size : Nat × Nat)
    (theta : Int) : NDImg :=
  lib.rotate (lib.resize (slice3 src bd) size) theta

/-- The angles `range(-40, 60, 20)` of `SuperPixel.generateFeatures`. -/
def angles : List Int := [-40, -20, 0, 20, 40]

/-- One iteration of the loop of `SuperPixel.generateFeatures`
(src/SuperPixel.py:88-106): the processed patch's hog vector, then the
local-binary-pattern histogram with `int(lbp.max() + 1)` bins, then the three
per-channel 64-bin histograms of the HSV conversion. The gabor and scharr
responses are computed by the source but never appended (the `append` is
commented out), so they are omitted here. -/
def perAngleFeatures (lib : Lib) (src : NDImg) (bd : Bounds) (size : Nat × Nat)
    (theta : Int) : List Rat :=
  let roi := processImg lib src bd size theta
  let gray := lib.toGray roi
  let hogV := lib.hog gray
  let lbpI := lib.lbp gray
  let nBins := imgMax lbpI + 1
  let lbpHist := histNormed (imgVals lbpI) nBins 0 nBins
  let hsv := lib.toHSV roi
  let colorHist := channelHist hsv 0 ++ channelHist hsv 1 ++ channelHist hsv 2
  hogV ++ lbpHist ++ colorHist.map fun (k : Nat) => (k : Rat)

/-- Embeds `SuperPixel.generateFeatures` (src/SuperPixel.py:84-141):
`np.concatenate` of the per-angle pieces accumulated in loop order. -/
def generateFeatures (lib : Lib) (src : NDImg) (bd : Bounds)
    (size : Nat × Nat) : List Rat :=
  (angles.map (perAngleFeatures lib src bd size)).flatten

/-- The `SuperPixel` object (src/SuperPixel.py:20-35) after a successful
`__init__`. -/
structure SuperPixel where
  id : Nat
  size : Nat × Nat
  bounds : Bounds
  mask : Mask2
  features : List Rat
  label : Nat

/-- Embeds `SuperPixel.__init__` (src/SuperPixel.py:22-35): validate the source
image, compute and validate the bounding box, crop the mask, generate the
features, and find the label; any raised exception becomes `Except.error`. -/
def mkSuperPixel (lib : Lib) (id_num : Nat) (src : NDImg) (lbl : Option Img2)
    (mask_img : Img2) (avg_size : Nat × Nat) : Except PyErr SuperPixel :=
  match checkSuperPixel src with
  | .error e => .error e
  | .ok _ =>
    let bounds := getBoundingBox id_num mask_img
    match checkBoundsE bounds with
    | .error e => .error e
    | .ok _ =>
      let mask := cropMask id_num bounds mask_img
      let features := generateFeatures lib src bounds avg_size
      match findLabelFn bounds mask lbl with
      | .error e => .error e
      | .ok label =>
        .ok { id := id_num, size := avg_size, bounds := bounds, mask := mask
              features := features, label := label }

/-- Embeds `create_spixel` (src/transfer/transfer.py:164-169): construct a
`SuperPixel`, catching `ValueError` (the error is reported via `tqdm.write`
and the function returns `None`); any other exception propagates. -/
def create_spixel (lib : Lib) (id_num : Nat) (src : NDImg) (lbl : Option Img2)
    (mask_img : Img2) (avg_size : Nat × Nat) : Except PyErr (Option SuperPixel) :=
  match mkSuperPixel lib id_num src lbl mask_img avg_size with
  | .ok sp => .ok (some sp)
  | .error (.valueError _) => .ok none
  | .error e => .error e

/-- The label vector built by `get_mosaic_features`
(src/transfer/transfer.py:104): `[pixel.id for pixel in superpixels if pixel
is not None]` — note these are the region ids, not the ground-truth labels. -/
def mosaicLabelsOf (sps : List (Option SuperPixel)) : List Nat :=
  sps.flatMap fun o => match o with
    | some p => [p.id]
    | none => []

/-- The feature matrix built by `get_mosaic_features`
(src/transfer/transfer.py:103). -/
def mosaicFeaturesOf (sps : List (Option SuperPixel)) : List (List Rat) :=
  sps.flatMap fun o => match o with
    | some p => [p.features]
    | none => []

/-- The dictionary comprehension `{pixel.id: pixel.label for pixel in
superpixels}` (src/transfer/transfer.py:105). It has no `is not None` filter:
on a `None` entry, `pixel.id` raises an uncatchable `AttributeError`. -/
def buildLabelDb : List (Option SuperPixel) → Except PyErr (List (Nat × Nat))
  | [] => .ok []
  | none :: _ => .error .attributeError
  | some p :: t =>
    match buildLabelDb t with
    | .error e => .error e
    | .ok db => .ok ((p.id, p.label) :: db)

/-- The "FORMAT DATA" step of `get_mosaic_features`
(src/transfer/transfer.py:101-110): feature matrix, label vector (of region
ids), and the id→label dictionary; the result triple is what `main` passes on
to the preprocessor, `train_svm`, and `save_info`. -/
def formatMosaicData (sps : List (Option SuperPixel)) :
    Except PyErr (List (List Rat) × List Nat × List (Nat × Nat)) :=
  let features := mosaicFeaturesOf sps
  let labels := mosaicLabelsOf sps
  match buildLabelDb sps with
  | .error e => .error e
  | .ok db => .ok (features, labels, db)

/-- One update of the mask-painting loop of `classify`
(src/transfer/transfer.py:154-156): if the prediction is nonzero, store it
(cast to uint8, hence `% 256`) at every pixel whose segment id equals the
region id. -/
def paintStep (seg : Img2) (m : Img2) (lp : Nat × Nat) : Img2 :=
  { h := m.h, w := m.w
    pix := fun r cc =>
      if lp.2 ≠ 0 ∧ seg.pix r cc = lp.1 then lp.2 % 256 else m.pix r cc }

/-- The mask-reconstruction loop of `classify`
(src/transfer/transfer.py:153-156): start from `np.zeros(segment_mask.shape,
dtype=np.uint8)` and paint region by region. The zip models
`enumerate(labels)` indexing into `predictions`, which are index-aligned by
construction. -/
def paintMask (seg : Img2) (labels preds : List Nat) : Img2 :=
  (labels.zip preds).foldl (paintStep seg) { h := seg.h, w := seg.w, pix := fun _ _ => 0 }

/-- The mapping `predictions = [shared.label_db[p] for p in pred]`
(src/transfer/transfer.py:143): map predicted ids through the id→label
dictionary. -/
def predictionsOf (labelDb : List (Nat × Nat)) (pred : List Nat) : List Nat :=
  pred.map fun p => ((labelDb.lookup p).getD 0)

/-- The two modes of `main` (src/transfer/transfer.py:268-270):
`filemode.WRITE` trains, `filemode.READ` loads a persisted model. -/
inductive Mode where
  | write | read
  deriving DecidableEq, Repr

/-- The coarse phases of `main` (src/transfer/transfer.py:23-75), in
program order. `classifyImages` stands for the whole per-image classification
pass (per-image segmentation, feature extraction, prediction, and mask
painting inside `classify`). -/
inductive Phase where
  | readMosaic | readImages
  | segmentMosaic | extractFeatures | fitPreprocessor | saveInfo
  | trainModel | saveModel
  | loadInfo | loadClassifier
  | setupArgs | classifyImages
  deriving DecidableEq, Repr

/-- The sequence of phases `main` executes for each mode
(src/transfer/transfer.py:23-75). The branch on `config.mode` covers only
the training / loading steps; the "Setup args" and "Classify" sections
(lines 61-75) follow the branch unconditionally. -/
def mainPhases : Mode → List Phase
  | .write =>
    [.readMosaic, .readImages,
     .segmentMosaic, .extractFeatures, .fitPreprocessor, .saveInfo,
     .trainModel, .saveModel,
     .setupArgs, .classifyImages]
  | .read =>
    [.readMosaic, .readImages,
     .loadInfo, .loadClassifier,
     .setupArgs, .classifyImages]

/-- A concrete instantiation of the external collaborators, satisfying every
documented shape contract of `Lib`: resize reads the top-left source pixel,
rotation and HSV conversion are identity, gray is channel 0, hog is empty,
and the local binary pattern is the gray image itself. -/
def lib0 : Lib where
  resize := fun i s => { h := s.2, w := s.1, c := i.c, val := fun _ _ ch => i.val 0 0 ch }
  resize_h := fun _ _ => rfl
  resize_w := fun _ _ => rfl
  resize_c := fun _ _ => rfl
  rotate := fun i _ => i
  rotate_h := fun _ _ => rfl
  rotate_w := fun _ _ => rfl
  rotate_c := fun _ _ => rfl
  toGray := fun i => { h := i.h, w := i.w, pix := fun r cc => i.val r cc 0 }
  toGray_h := fun _ => rfl
  toGray_w := fun _ => rfl
  toHSV := fun i => i
  toHSV_h := fun _ => rfl
  toHSV_w := fun _ => rfl
  toHSV_c := fun _ => rfl
  hog := fun _ => []
  hog_len := fun _ _ _ _ => rfl
  lbp := fun g => g
  lbp_h := fun _ => rfl
  lbp_w := fun _ => rfl

/-- A 21×21 3-channel source image whose pixels are all 1. -/
def srcA : NDImg := { h := 21, w := 21, c := 3, val := fun _ _ _ => 1 }

/-- A 21×21 3-channel source image whose pixels are all 9. -/
def srcB : NDImg := { h := 21, w := 21, c := 3, val := fun _ _ _ => 9 }

/-- A 21×21 3-channel source image whose pixels are all 0. -/
def srcZero : NDImg := { h := 21, w := 21, c := 3, val := fun _ _ _ => 0 }

/-- A 21×21 region-id map where region 1 occupies the square with rows and
columns 1..3, and the rest belongs to region 0. -/
def maskA : Img2 :=
  { h := 21, w := 21
    pix := fun r cc => if 1 ≤ r ∧ r ≤ 3 ∧ 1 ≤ cc ∧ cc ≤ 3 then 1 else 0 }

/-- A 21×21 ground-truth map whose value is 4 everywhere. -/
def lblA : Img2 := { h := 21, w := 21, pix := fun _ _ => 4 }

/-- A 5×5 region-id map where region 7 occupies exactly the two pixels (1,1)
and (3,3): its rows (and columns) of occurrence are 1 and 3, with a gap at 2. -/
def gapMask : Img2 :=
  { h := 5, w := 5
    pix := fun r cc => if (r = 1 ∧ cc = 1) ∨ (r = 3 ∧ cc = 3) then 7 else 0 }

/-- Feature-vector length of a construction result (0 for a failure). -/
def featLenOf : Except PyErr SuperPixel → Nat
  | .ok sp => sp.features.length
  | .error _ => 0

/-- Label of a construction result. -/
def labelOf : Except PyErr SuperPixel → Option Nat
  | .ok sp => some sp.label
  | .error _ => none

lemma foldl_min_spec (xs : List Nat) : ∀ a : Nat,
    (xs.foldl min a = a ∨ xs.foldl min a ∈ xs) ∧ (∀ y ∈ a :: xs, xs.foldl min a ≤ y) := by
  induction xs with
  | nil => intro a; simp
  | cons b bs ih =>
    intro a
    have h := ih (min a b)
    simp only [List.foldl_cons]
    refine ⟨?_, ?_⟩
    · rcases h.1 with h1 | h1
      · rcases Nat.le_total a b with hab | hab
        · left; rw [h1]; exact Nat.min_eq_left hab
        · right; rw [h1, Nat.min_eq_right hab]; exact List.mem_cons_self b bs
      · right; exact List.mem_cons_of_mem b h1
    · intro y hy
      have hm : bs.foldl min (min a b) ≤ min a b := h.2 _ (List.mem_cons_self _ _)
      rcases List.mem_cons.mp hy with rfl | hy'
      · exact le_trans hm (Nat.min_le_left _ _)
      · rcases List.mem_cons.mp hy' with rfl | hy''
        · exact le_trans hm (Nat.min_le_right _ _)
        · exact h.2 y (List.mem_cons_of_mem _ hy'')

lemma listMin_spec (l : List Nat) (h : l ≠ []) :
    ∃ m, listMin l = some m ∧ m ∈ l ∧ ∀ y ∈ l, m ≤ y := by
  match l with
  | [] => exact absurd rfl h
  | x :: xs =>
    refine ⟨xs.foldl min x, rfl, ?_, (foldl_min_spec xs x).2⟩
    rcases (foldl_min_spec xs x).1 with h1 | h1
    · rw [h1]; exact List.mem_cons_self x xs
    · exact List.mem_cons_of_mem x h1

lemma exists_max_image (f : Nat → Nat) (l : List Nat) (h : l ≠ []) :
    ∃ x ∈ l, ∀ y ∈ l, f y ≤ f x := by
  induction l with
  | nil => exact absurd rfl h
  | cons a t ih =>
    rcases eq_or_ne t [] with rfl | ht
    · exact ⟨a, List.mem_cons_self a [], by simp⟩
    · obtain ⟨x, hx, hmax⟩ := ih ht
      rcases Nat.le_total (f a) (f x) with hle | hle
      · refine ⟨x, List.mem_cons_of_mem a hx, ?_⟩
        intro y hy
        rcases List.mem_cons.mp hy with rfl | hy'
        · exact hle
        · exact hmax y hy'
      · refine ⟨a, List.mem_cons_self a t, ?_⟩
        intro y hy
        rcases List.mem_cons.mp hy with rfl | hy'
        · exact le_refl _
        · exact le_trans (hmax y hy') hle

lemma npMode_spec (l : List Nat) (h : l ≠ []) :
    ∃ m, npMode l = some m ∧ m ∈ l ∧ (∀ y ∈ l, l.count y ≤ l.count m) ∧
      (∀ y ∈ l, l.count y = l.count m → m ≤ y) := by
  obtain ⟨x, hx, hmax⟩ := exists_max_image (fun z => l.count z) l h
  have hxf : x ∈ l.filter fun z => l.all fun y => decide (l.count y ≤ l.count z) := by
    rw [List.mem_filter]
    exact ⟨hx, List.all_eq_true.mpr fun y hy => decide_eq_true (hmax y hy)⟩
  have hne : (l.filter fun z => l.all fun y => decide (l.count y ≤ l.count z)) ≠ [] :=
    List.ne_nil_of_mem hxf
  obtain ⟨m, hm, hmem, hmin⟩ := listMin_spec _ hne
  have hmF := List.mem_filter.mp hmem
  have hmMax : ∀ y ∈ l, l.count y ≤ l.count m := by
    intro y hy
    exact of_decide_eq_true (List.all_eq_true.mp hmF.2 y hy)
  refine ⟨m, hm, hmF.1, hmMax, ?_⟩
  intro y hy hcnt
  have hyf : y ∈ l.filter fun z => l.all fun y => decide (l.count y ≤ l.count z) := by
    rw [List.mem_filter]
    refine ⟨hy, List.all_eq_true.mpr fun z hz => decide_eq_true ?_⟩
    rw [hcnt]
    exact hmMax z hz
  exact hmin y hyf

lemma npMode_eq_none_iff (l : List Nat) : npMode l = none ↔ l = [] := by
  constructor
  · intro h
    by_contra hne
    obtain ⟨m, hm, -⟩ := npMode_spec l hne
    rw [h] at hm
    exact Option.noConfusion hm
  · intro h
    subst h
    rfl

lemma mem_selectedVals {x : Nat} {roi : Img2} {mask : Mask2}
    (h : x ∈ selectedVals roi mask) :
    ∃ r cc, r < mask.h ∧ cc < mask.w ∧ mask.pix r cc = true ∧ x = roi.pix r cc := by
  unfold selectedVals at h
  simp only [List.mem_flatMap, List.mem_map, List.mem_filter, List.mem_range] at h
  obtain ⟨r, hr, cc, ⟨hcw, hpix⟩, hx⟩ := h
  exact ⟨r, cc, hr, hcw, hpix, hx.symm⟩

lemma checkSuperPixel_ok_iff (img : NDImg) :
    checkSuperPixel img = .ok () ↔
      (anySrc img = true ∧ 20 < img.h ∧ 20 < img.w ∧ img.c = 3) := by
  unfold checkSuperPixel
  split_ifs with h1 h2 h3 h4 <;> simp_all

lemma checkSuperPixel_cases (img : NDImg) :
    checkSuperPixel img = .ok () ∨ ∃ r, checkSuperPixel img = .error (.valueError r) := by
  unfold checkSuperPixel
  split_ifs <;> first | (left; rfl) | (right; exact ⟨_, rfl⟩)

lemma checkBoundsE_ok_iff (bd : Bounds) :
    checkBoundsE bd = .ok () ↔ (bd.1.1 < bd.2.1 ∧ bd.1.2 < bd.2.2) := by
  unfold checkBoundsE
  split_ifs with h1 h2 <;> simp_all

lemma checkBoundsE_cases (bd : Bounds) :
    checkBoundsE bd = .ok () ∨ ∃ r, checkBoundsE bd = .error (.valueError r) := by
  unfold checkBoundsE
  split_ifs <;> first | (left; rfl) | (right; exact ⟨_, rfl⟩)

lemma findLabelFn_some (bd : Bounds) (mask : Mask2) (l : Img2) :
    findLabelFn bd mask (some l) =
      match npMode (selectedVals (slice2 l bd) mask) with
      | none => .error .indexError
      | some m => .ok m := rfl

lemma findLabelFn_ok_iff (bd : Bounds) (mask : Mask2) (lbl : Option Img2) :
    (∃ v, findLabelFn bd mask lbl = .ok v) ↔
      ∃ l, lbl = some l ∧ selectedVals (slice2 l bd) mask ≠ [] := by
  cases lbl with
  | none => simp [findLabelFn]
  | some l =>
    constructor
    · rintro ⟨v, hv⟩
      refine ⟨l, rfl, ?_⟩
      intro hnil
      rw [findLabelFn_some, hnil] at hv
      simp [npMode, listMin] at hv
    · rintro ⟨l', hl', hne⟩
      obtain rfl : l = l' := by injection hl'
      obtain ⟨m, hm, -⟩ := npMode_spec _ hne
      refine ⟨m, ?_⟩
      rw [findLabelFn_some, hm]

lemma findLabelFn_not_valueError (bd : Bounds) (mask : Mask2) (lbl : Option Img2)
    (r : ValueReason) : findLabelFn bd mask lbl ≠ .error (.valueError r) := by
  cases lbl with
  | none => simp [findLabelFn]
  | some l =>
    rw [findLabelFn_some]
    cases npMode (selectedVals (slice2 l bd) mask) <;> simp

lemma mkSuperPixel_err_check (lib : Lib) (id : Nat) (src : NDImg) (lbl : Option Img2)
    (mask_img : Img2) (sz : Nat × Nat) (e : PyErr)
    (hc : checkSuperPixel src = .error e) :
    mkSuperPixel lib id src lbl mask_img sz = .error e := by
  simp only [mkSuperPixel, hc]

lemma mkSuperPixel_err_bounds (lib : Lib) (id : Nat) (src : NDImg) (lbl : Option Img2)
    (mask_img : Img2) (sz : Nat × Nat) (e : PyErr)
    (hc : checkSuperPixel src = .ok ())
    (hb : checkBoundsE (getBoundingBox id mask_img) = .error e) :
    mkSuperPixel lib id src lbl mask_img sz = .error e := by
  simp only [mkSuperPixel, hc, hb]

lemma mkSuperPixel_checks_ok (lib : Lib) (id : Nat) (src : NDImg) (lbl : Option Img2)
    (mask_img : Img2) (sz : Nat × Nat)
    (hc : checkSuperPixel src = .ok ())
    (hb : checkBoundsE (getBoundingBox id mask_img) = .ok ()) :
    mkSuperPixel lib id src lbl mask_img sz =
      match findLabelFn (getBoundingBox id mask_img)
          (cropMask id (getBoundingBox id mask_img) mask_img) lbl with
      | .error e => .error e
      | .ok label =>
        .ok { id := id, size := sz, bounds := getBoundingBox id mask_img
              mask := cropMask id (getBoundingBox id mask_img) mask_img
              features := generateFeatures lib src (getBoundingBox id mask_img) sz
              label := label } := by
  simp only [mkSuperPixel, hc, hb]

lemma mk_valueError_iff (lib : Lib) (id : Nat) (src : NDImg) (lbl : Option Img2)
    (mask_img : Img2) (sz : Nat × Nat) :
    (∃ r, mkSuperPixel lib id src lbl mask_img sz = .error (.valueError r)) ↔
      ¬(checkSuperPixel src = .ok () ∧
        checkBoundsE (getBoundingBox id mask_img) = .ok ()) := by
  rcases checkSuperPixel_cases src with hc | ⟨r0, hc⟩
  · rcases checkBoundsE_cases (getBoundingBox id mask_img) with hb | ⟨r1, hb⟩
    · rw [mkSuperPixel_checks_ok lib id src lbl mask_img sz hc hb]
      constructor
      · rintro ⟨r, hr⟩
        cases hf : findLabelFn (getBoundingBox id mask_img)
            (cropMask id (getBoundingBox id mask_img) mask_img) lbl with
        | error e =>
          rw [hf] at hr
          simp only at hr
          obtain rfl : e = .valueError r := by injection hr
          exact absurd hf (findLabelFn_not_valueError _ _ _ r)
        | ok v =>
          rw [hf] at hr
          simp at hr
      · intro hcontra
        exact absurd ⟨hc, hb⟩ hcontra
    · constructor
      · rintro -
        rintro ⟨-, hb2⟩
        rw [hb] at hb2
        exact Except.noConfusion hb2
      · intro _
        exact ⟨r1, mkSuperPixel_err_bounds lib id src lbl mask_img sz _ hc hb⟩
  · constructor
    · rintro -
      rintro ⟨hc2, -⟩
      rw [hc] at hc2
      exact Except.noConfusion hc2
    · intro _
      exact ⟨r0, mkSuperPixel_err_check lib id src lbl mask_img sz _ hc⟩

lemma mk_isOk_iff (lib : Lib) (id : Nat) (src : NDImg) (lbl : Option Img2)
    (mask_img : Img2) (sz : Nat × Nat) :
    (mkSuperPixel lib id src lbl mask_img sz).isOk = true ↔
      (checkSuperPixel src = .ok () ∧
       checkBoundsE (getBoundingBox id mask_img) = .ok () ∧
       ∃ v, findLabelFn (getBoundingBox id mask_img)
         (cropMask id (getBoundingBox id mask_img) mask_img) lbl = .ok v) := by
  rcases checkSuperPixel_cases src with hc | ⟨r0, hc⟩
  · rcases checkBoundsE_cases (getBoundingBox id mask_img) with hb | ⟨r1, hb⟩
    · rw [mkSuperPixel_checks_ok lib id src lbl mask_img sz hc hb]
      cases hf : findLabelFn (getBoundingBox id mask_img)
          (cropMask id (getBoundingBox id mask_img) mask_img) lbl with
      | error e => simp [Except.isOk, Except.toBool, hc, hb]
      | ok v => simp [Except.isOk, Except.toBool, hc, hb]
    · rw [mkSuperPixel_err_bounds lib id src lbl mask_img sz _ hc hb]
      simp [Except.isOk, Except.toBool, hb]
  · rw [mkSuperPixel_err_check lib id src lbl mask_img sz _ hc]
    simp [Except.isOk, Except.toBool, hc]

/-- Claim C1 (status: code_bug). The claim — and §4.1 / §9 of the spec —
require the bounding-box scan to examine every row and every column with no
early termination, so that a non-contiguous mask still spans from the first
to the last occurrence of the id. The code's scan `break`s at the first empty
row (column) once the region has started: on `gapMask`, whose region 7
occupies pixels (1,1) and (3,3) (rows and columns 1 and 3, with a gap at 2),
the scan stops at row 2 and returns the degenerate box ((1,1),(1,1)) instead
of a box reaching row/column 3. -/
theorem c1_earlyBreak_truncates_box :
    gapMask.pix 1 1 = 7 ∧ gapMask.pix 3 3 = 7 ∧
    getBoundingBox 7 gapMask = ((1, 1), (1, 1)) :=
  ⟨rfl, rfl, by decide⟩

/-- Claim C6 (status: confirmed). Every successfully built region has a
non-degenerate bounding box (`min_row < max_row` and `min_col < max_col`)
and a cropped mask with at least one true pixel: success requires
`checkBounds` to pass and `findLabel`'s mode over the masked selection to be
defined, which forces the selection — indexed by the true pixels of the
cropped mask — to be nonempty. -/
theorem c6_built_region_invariants (lib : Lib) (id : Nat) (src : NDImg)
    (lbl : Option Img2) (mask_img : Img2) (sz : Nat × Nat)
    (h : (mkSuperPixel lib id src lbl mask_img sz).isOk = true) :
    ((getBoundingBox id mask_img).1.1 < (getBoundingBox id mask_img).2.1 ∧
     (getBoundingBox id mask_img).1.2 < (getBoundingBox id mask_img).2.2) ∧
    ∃ r cc, r < (cropMask id (getBoundingBox id mask_img) mask_img).h ∧
      cc < (cropMask id (getBoundingBox id mask_img) mask_img).w ∧
      (cropMask id (getBoundingBox id mask_img) mask_img).pix r cc = true := by
  rw [mk_isOk_iff] at h
  obtain ⟨hc, hb, hf⟩ := h
  refine ⟨(checkBoundsE_ok_iff _).mp hb, ?_⟩
  obtain ⟨l, hl, hne⟩ := (findLabelFn_ok_iff _ _ _).mp hf
  obtain ⟨x, hx⟩ := List.exists_mem_of_ne_nil _ hne
  obtain ⟨r, cc, hr, hcw, hpix, -⟩ := mem_selectedVals hx
  exact ⟨r, cc, hr, hcw, hpix⟩

/-- Witness for C6 at a concrete successful construction (region 1 of
`maskA` on `srcA` with ground truth `lblA`). -/
theorem c6_built_region_invariants_witness :
    ((getBoundingBox 1 maskA).1.1 < (getBoundingBox 1 maskA).2.1 ∧
     (getBoundingBox 1 maskA).1.2 < (getBoundingBox 1 maskA).2.2) ∧
    ∃ r cc, r < (cropMask 1 (getBoundingBox 1 maskA) maskA).h ∧
      cc < (cropMask 1 (getBoundingBox 1 maskA) maskA).w ∧
      (cropMask 1 (getBoundingBox 1 maskA) maskA).pix r cc = true :=
  c6_built_region_invariants lib0 1 srcA (some lblA) maskA (2, 2) (by decide)

/-- Claim C7 (status: corrected; this is the counterexample to the claim as
stated). The claim says that for every input that is 3-channel, has both
spatial dimensions > 20, and yields a non-degenerate bounding box,
construction succeeds. `srcZero` (an all-zero 21×21 3-channel image) with the
perfectly valid region 1 of `maskA` satisfies all three conditions, yet
construction fails: `checkSuperPixel`'s first test is `if not img.any()`,
which raises `ValueError("No input image data given.")` on an all-zero
image. -/
theorem c7_counterexample_allzero_image :
    srcZero.c = 3 ∧ 20 < srcZero.h ∧ 20 < srcZero.w ∧
    (getBoundingBox 1 maskA).1.1 < (getBoundingBox 1 maskA).2.1 ∧
    (getBoundingBox 1 maskA).1.2 < (getBoundingBox 1 maskA).2.2 ∧
    mkSuperPixel lib0 1 srcZero (some lblA) maskA (2, 2) =
      .error (.valueError .noData) :=
  ⟨rfl, by decide, by decide, by decide, by decide, rfl⟩

/-- Claim C7 as amended (status: corrected). Region construction fails with a
recoverable `ValueError` iff the source image is entirely zero, not 3-channel,
has a spatial dimension ≤ 20, or the computed bounding box is degenerate
(`min ≥ max` on either axis, which covers an id absent from the id map); and
construction succeeds iff none of these hold, a ground-truth map is supplied,
and the mode selection under the cropped mask is nonempty (otherwise
construction aborts with a non-recoverable `TypeError` / `IndexError`). -/
theorem c7_invalid_region_characterization (lib : Lib) (id : Nat) (src : NDImg)
    (lbl : Option Img2) (mask_img : Img2) (sz : Nat × Nat) :
    ((∃ r, mkSuperPixel lib id src lbl mask_img sz = .error (.valueError r)) ↔
      ¬(anySrc src = true ∧ 20 < src.h ∧ 20 < src.w ∧ src.c = 3 ∧
        (getBoundingBox id mask_img).1.1 < (getBoundingBox id mask_img).2.1 ∧
        (getBoundingBox id mask_img).1.2 < (getBoundingBox id mask_img).2.2))
    ∧ ((mkSuperPixel lib id src lbl mask_img sz).isOk = true ↔
      (anySrc src = true ∧ 20 < src.h ∧ 20 < src.w ∧ src.c = 3 ∧
       ((getBoundingBox id mask_img).1.1 < (getBoundingBox id mask_img).2.1 ∧
        (getBoundingBox id mask_img).1.2 < (getBoundingBox id mask_img).2.2) ∧
       ∃ l, lbl = some l ∧
         selectedVals (slice2 l (getBoundingBox id mask_img))
           (cropMask id (getBoundingBox id mask_img) mask_img) ≠ [])) := by
  constructor
  · rw [mk_valueError_iff, checkSuperPixel_ok_iff, checkBoundsE_ok_iff]
    tauto
  · rw [mk_isOk_iff, checkSuperPixel_ok_iff, checkBoundsE_ok_iff, findLabelFn_ok_iff]
    tauto

/-- A 2×2 boolean mask that is true everywhere. -/
def mask22 : Mask2 := { h := 2, w := 2, pix := fun _ _ => true }

/-- A 2×2 ground-truth map with values [[1,1],[2,1]] (row-major [1,1,2,1]). -/
def lblB : Img2 :=
  { h := 2, w := 2, pix := fun r cc => if r = 1 ∧ cc = 0 then 2 else 1 }

/-- Claim C9 (status: confirmed). During training a region's label is the
majority (mode) value of the ground-truth map cropped to the bounding box,
restricted to the pixels where the cropped region mask is true, with ties
broken toward the lowest value (scipy.stats.mode's documented convention). -/
theorem c9_majority_label (bd : Bounds) (mask : Mask2) (l : Img2)
    (h : selectedVals (slice2 l bd) mask ≠ []) :
    ∃ m, findLabelFn bd mask (some l) = .ok m ∧
      m ∈ selectedVals (slice2 l bd) mask ∧
      (∀ y ∈ selectedVals (slice2 l bd) mask,
        (selectedVals (slice2 l bd) mask).count y ≤
          (selectedVals (slice2 l bd) mask).count m) ∧
      (∀ y ∈ selectedVals (slice2 l bd) mask,
        (selectedVals (slice2 l bd) mask).count y =
          (selectedVals (slice2 l bd) mask).count m → m ≤ y) := by
  obtain ⟨m, hm, hmem, hmax, hmin⟩ := npMode_spec _ h
  refine ⟨m, ?_, hmem, hmax, hmin⟩
  rw [findLabelFn_some, hm]

/-- Witness for C9: ground-truth selection [1,1,2,1] (the spec's own example)
yields region label 1. -/
theorem c9_majority_label_witness :
    (∃ m, findLabelFn ((0, 0), (2, 2)) mask22 (some lblB) = .ok m ∧
      m ∈ selectedVals (slice2 lblB ((0, 0), (2, 2))) mask22 ∧
      (∀ y ∈ selectedVals (slice2 lblB ((0, 0), (2, 2))) mask22,
        (selectedVals (slice2 lblB ((0, 0), (2, 2))) mask22).count y ≤
          (selectedVals (slice2 lblB ((0, 0), (2, 2))) mask22).count m) ∧
      (∀ y ∈ selectedVals (slice2 lblB ((0, 0), (2, 2))) mask22,
        (selectedVals (slice2 lblB ((0, 0), (2, 2))) mask22).count y =
          (selectedVals (slice2 lblB ((0, 0), (2, 2))) mask22).count m → m ≤ y)) ∧
    selectedVals (slice2 lblB ((0, 0), (2, 2))) mask22 = [1, 1, 2, 1] ∧
    findLabelFn ((0, 0), (2, 2)) mask22 (some lblB) = .ok 1 :=
  ⟨c9_majority_label ((0, 0), (2, 2)) mask22 lblB (by decide), by decide, rfl⟩

/-- Claim C10 (status: confirmed). Every crop to the bounding box uses the
half-open ranges [min_row, max_row) × [min_col, max_col): the cropped extent
is (max_row − min_row) × (max_col − min_col); pixel (r, cc) of a crop reads
source pixel (min_row + r, min_col + cc), and every such read stays strictly
below max_row / max_col; this one slicing convention is shared by the cropped
mask (`cropMask`), the patch resized for feature generation (`processImg`
applies `resize`/`rotate` to the slice), and the ground-truth pixels used for
label voting (`findLabelFn` votes over the sliced ground truth). -/
theorem c10_halfOpen_crops (lib : Lib) (m : Img2) (src : NDImg) (lbl : Img2)
    (id : Nat) (sz : Nat × Nat) (theta : Int) (bd : Bounds) (mask : Mask2)
    (hr : bd.2.1 ≤ m.h) (hc : bd.2.2 ≤ m.w) :
    ((slice2 m bd).h = bd.2.1 - bd.1.1 ∧ (slice2 m bd).w = bd.2.2 - bd.1.2) ∧
    (∀ r cc, (slice2 m bd).pix r cc = m.pix (bd.1.1 + r) (bd.1.2 + cc)) ∧
    (∀ r, r < (slice2 m bd).h → bd.1.1 + r < bd.2.1) ∧
    (∀ cc, cc < (slice2 m bd).w → bd.1.2 + cc < bd.2.2) ∧
    ((cropMask id bd m).h = bd.2.1 - bd.1.1 ∧
     (cropMask id bd m).w = bd.2.2 - bd.1.2) ∧
    (∀ r cc, (cropMask id bd m).pix r cc = (m.pix (bd.1.1 + r) (bd.1.2 + cc) == id)) ∧
    (processImg lib src bd sz theta = lib.rotate (lib.resize (slice3 src bd) sz) theta) ∧
    (∀ r cc ch, (slice3 src bd).val r cc ch = src.val (bd.1.1 + r) (bd.1.2 + cc) ch) ∧
    (bd.2.1 ≤ src.h → (slice3 src bd).h = bd.2.1 - bd.1.1) ∧
    (bd.2.2 ≤ src.w → (slice3 src bd).w = bd.2.2 - bd.1.2) ∧
    (findLabelFn bd mask (some lbl) =
      match npMode (selectedVals (slice2 lbl bd) mask) with
      | none => .error .indexError
      | some v => .ok v) := by
  refine ⟨⟨?_, ?_⟩, fun r cc => rfl, fun r hlt => ?_, fun cc hlt => ?_, ⟨?_, ?_⟩,
    fun r cc => rfl, rfl, fun r cc ch => rfl, fun hs => ?_, fun hs => ?_,
    findLabelFn_some bd mask lbl⟩
  · simp only [slice2]; omega
  · simp only [slice2]; omega
  · simp only [slice2] at hlt; omega
  · simp only [slice2] at hlt; omega
  · simp only [cropMask, slice2]; omega
  · simp only [cropMask, slice2]; omega
  · simp only [slice3]; omega
  · simp only [slice3]; omega

/-- Witness for C10 at the concrete bounding box ((1,1),(3,3)) of region 1 in
`maskA`: the cropped extent is 2×2, excluding row 3 and column 3. -/
theorem c10_halfOpen_crops_witness :
    ((slice2 maskA ((1, 1), (3, 3))).h = 3 - 1 ∧
     (slice2 maskA ((1, 1), (3, 3))).w = 3 - 1) ∧
    (∀ r cc, (slice2 maskA ((1, 1), (3, 3))).pix r cc = maskA.pix (1 + r) (1 + cc)) ∧
    (∀ r, r < (slice2 maskA ((1, 1), (3, 3))).h → 1 + r < 3) ∧
    (∀ cc, cc < (slice2 maskA ((1, 1), (3, 3))).w → 1 + cc < 3) ∧
    ((cropMask 1 ((1, 1), (3, 3)) maskA).h = 3 - 1 ∧
     (cropMask 1 ((1, 1), (3, 3)) maskA).w = 3 - 1) ∧
    (∀ r cc, (cropMask 1 ((1, 1), (3, 3)) maskA).pix r cc =
      (maskA.pix (1 + r) (1 + cc) == 1)) ∧
    (processImg lib0 srcA ((1, 1), (3, 3)) (2, 2) 0 =
      lib0.rotate (lib0.resize (slice3 srcA ((1, 1), (3, 3))) (2, 2)) 0) ∧
    (∀ r cc ch, (slice3 srcA ((1, 1), (3, 3))).val r cc ch =
      srcA.val (1 + r) (1 + cc) ch) ∧
    (3 ≤ srcA.h → (slice3 srcA ((1, 1), (3, 3))).h = 3 - 1) ∧
    (3 ≤ srcA.w → (slice3 srcA ((1, 1), (3, 3))).w = 3 - 1) ∧
    (findLabelFn ((1, 1), (3, 3)) mask22 (some lblA) =
      match npMode (selectedVals (slice2 lblA ((1, 1), (3, 3))) mask22) with
      | none => .error .indexError
      | some v => .ok v) :=
  c10_halfOpen_crops lib0 maskA srcA lblA 1 (2, 2) 0 ((1, 1), (3, 3)) mask22
    (by decide) (by decide)

lemma paint_preserve (seg : Img2) (L : List (Nat × Nat)) (m : Img2) (r cc : Nat)
    (h : ∀ lp ∈ L, lp.2 = 0 ∨ seg.pix r cc ≠ lp.1) :
    (L.foldl (paintStep seg) m).pix r cc = m.pix r cc := by
  induction L generalizing m with
  | nil => rfl
  | cons lp L ih =>
    rw [List.foldl_cons, ih _ (fun q hq => h q (List.mem_cons_of_mem _ hq))]
    have hlp := h lp (List.mem_cons_self _ _)
    simp only [paintStep]
    rcases hlp with h0 | hne
    · rw [if_neg]
      rintro ⟨hnz, -⟩
      exact hnz h0
    · rw [if_neg]
      rintro ⟨-, heq⟩
      exact hne heq

lemma paint_get (seg : Img2) : ∀ (ls ps : List Nat) (m : Img2) (r cc i : Nat)
    (hi : i < ls.length) (hp : i < ps.length),
    ls.Nodup → ls.get ⟨i, hi⟩ = seg.pix r cc →
    ((ls.zip ps).foldl (paintStep seg) m).pix r cc =
      if ps.get ⟨i, hp⟩ = 0 then m.pix r cc else ps.get ⟨i, hp⟩ % 256 := by
  intro ls
  induction ls with
  | nil =>
    intro ps m r cc i hi
    exact absurd hi (by simp)
  | cons a ls ih =>
    intro ps m r cc i hi hp hnd hget
    cases ps with
    | nil => exact absurd hp (by simp)
    | cons b ps =>
      rw [List.zip_cons_cons, List.foldl_cons]
      cases i with
      | zero =>
        have hga : a = seg.pix r cc := hget
        have hnotin : ∀ lp ∈ ls.zip ps, lp.2 = 0 ∨ seg.pix r cc ≠ lp.1 := by
          intro lp hlp
          right
          intro heq
          obtain ⟨x, y⟩ := lp
          have hx : x ∈ ls := (List.of_mem_zip hlp).1
          have : a ∈ ls := by
            rw [hga, heq]
            exact hx
          exact (List.nodup_cons.mp hnd).1 this
        rw [paint_preserve seg _ _ r cc hnotin]
        simp only [paintStep, List.get]
        rcases eq_or_ne b 0 with rfl | hb
        · rw [if_neg, if_pos rfl]
          rintro ⟨hnz, -⟩
          exact hnz rfl
        · rw [if_pos ⟨hb, hga.symm⟩, if_neg hb]
      | succ i =>
        have hi' : i < ls.length := Nat.succ_lt_succ_iff.mp hi
        have hp' : i < ps.length := Nat.succ_lt_succ_iff.mp hp
        have hget' : ls.get ⟨i, hi'⟩ = seg.pix r cc := hget
        have hx : seg.pix r cc ∈ ls := by
          rw [← hget']
          exact ls.get_mem _ _
        have ha : a ≠ seg.pix r cc := by
          intro heq
          exact (List.nodup_cons.mp hnd).1 (heq ▸ hx)
        have hstep : (paintStep seg m (a, b)).pix r cc = m.pix r cc := by
          simp only [paintStep]
          rw [if_neg]
          rintro ⟨-, heq⟩
          exact ha heq.symm
        rw [ih ps (paintStep seg m (a, b)) r cc i hi' hp'
          (List.nodup_cons.mp hnd).2 hget', hstep]
        rfl

/-- Claim C5 (status: confirmed). At inference, mask reconstruction over the
surviving (region id, predicted label) pairs is a scatter: a pixel whose
segment-map id is not among the surviving region ids (in particular any pixel
of a region dropped by the feature pipeline) keeps the background value 0,
and a pixel of the i-th surviving region is painted with the i-th prediction
except that painting is skipped (the pixel stays 0) exactly when that
prediction is 0. Hypotheses: region ids are pairwise distinct, predictions
are index-aligned with the ids, and (as uint8 ground-truth labels) are below
256. -/
theorem c5_mask_scatter (seg : Img2) (labels preds : List Nat)
    (hnd : labels.Nodup) (_hlen : labels.length = preds.length)
    (hbound : ∀ p ∈ preds, p < 256) (r cc : Nat) :
    (seg.pix r cc ∉ labels → (paintMask seg labels preds).pix r cc = 0) ∧
    (∀ i (hi : i < labels.length) (hp : i < preds.length),
      labels.get ⟨i, hi⟩ = seg.pix r cc →
      (paintMask seg labels preds).pix r cc =
        if preds.get ⟨i, hp⟩ = 0 then 0 else preds.get ⟨i, hp⟩) := by
  constructor
  · intro hnot
    unfold paintMask
    rw [paint_preserve]
    intro lp hlp
    right
    intro heq
    obtain ⟨x, y⟩ := lp
    exact hnot (heq ▸ (List.of_mem_zip hlp).1)
  · intro i hi hp hget
    unfold paintMask
    rw [paint_get seg labels preds _ r cc i hi hp hnd hget]
    have hm : preds.get ⟨i, hp⟩ % 256 = preds.get ⟨i, hp⟩ :=
      Nat.mod_eq_of_lt (hbound _ (preds.get_mem _ _))
    rw [hm]

/-- A 2×2 segment-id map with ids 1, 2 (top row) and 3, 4 (bottom row). -/
def segEx : Img2 := { h := 2, w := 2, pix := fun r cc => r * 2 + cc + 1 }

/-- Witness for C5: the spec's example pairs {1→5, 2→0, 3→7}; pixels of
region 2 stay background, regions 1 and 3 are painted 5 and 7, and the pixel
of region 4 (a dropped region, absent from the surviving ids) stays
background. -/
theorem c5_mask_scatter_witness :
    (paintMask segEx [1, 2, 3] [5, 0, 7]).pix 0 0 = 5 ∧
    (paintMask segEx [1, 2, 3] [5, 0, 7]).pix 0 1 = 0 ∧
    (paintMask segEx [1, 2, 3] [5, 0, 7]).pix 1 0 = 7 ∧
    (paintMask segEx [1, 2, 3] [5, 0, 7]).pix 1 1 = 0 := by
  refine ⟨?_, ?_, ?_, ?_⟩
  · have h := (c5_mask_scatter segEx [1, 2, 3] [5, 0, 7] (by decide) rfl
      (by decide) 0 0).2 0 (by decide) (by decide) (by decide)
    simpa using h
  · have h := (c5_mask_scatter segEx [1, 2, 3] [5, 0, 7] (by decide) rfl
      (by decide) 0 1).2 1 (by decide) (by decide) (by decide)
    simpa using h
  · have h := (c5_mask_scatter segEx [1, 2, 3] [5, 0, 7] (by decide) rfl
      (by decide) 1 0).2 2 (by decide) (by decide) (by decide)
    simpa using h
  · exact (c5_mask_scatter segEx [1, 2, 3] [5, 0, 7] (by decide) rfl
      (by decide) 1 1).1 (by decide)

/-- A concrete surviving region with id 3 and ground-truth label 7. -/
def spA : SuperPixel :=
  { id := 3, size := (2, 2), bounds := ((0, 0), (1, 1)), mask := mask22
    features := [], label := 7 }

/-- Claim C2 (status: code_bug). The feature and id arrays of
`get_mosaic_features` do drop a failed (`None`) region, but the id→label
dictionary comprehension on line 105 has no `is not None` filter: with one
failed region among the results, `pixel.id` is evaluated on `None`, raising
an uncatchable `AttributeError` that aborts the whole training batch —
contradicting the claim that a failure never aborts the batch. -/
theorem c2_labelDb_aborts_batch :
    mosaicFeaturesOf [some spA, none] = [spA.features] ∧
    mosaicLabelsOf [some spA, none] = [spA.id] ∧
    formatMosaicData [some spA, none] = .error .attributeError :=
  ⟨rfl, rfl, rfl⟩

lemma mosaicLabelsOf_cons (o : Option SuperPixel) (t : List (Option SuperPixel)) :
    mosaicLabelsOf (o :: t) =
      (match o with | some p => [p.id] | none => []) ++ mosaicLabelsOf t := rfl

lemma mosaicLabelsOf_eq (sps : List (Option SuperPixel)) :
    mosaicLabelsOf sps = (sps.filterMap (fun o => o)).map SuperPixel.id := by
  induction sps with
  | nil => rfl
  | cons o t ih =>
    cases o with
    | none => rw [mosaicLabelsOf_cons, ih]; simp
    | some p => rw [mosaicLabelsOf_cons, ih]; simp

lemma buildLabelDb_ok (sps : List (Option SuperPixel)) (db : List (Nat × Nat))
    (h : buildLabelDb sps = .ok db) :
    db = (sps.filterMap (fun o => o)).map (fun p => (p.id, p.label)) := by
  induction sps generalizing db with
  | nil =>
    obtain rfl : [] = db := by injection h
    rfl
  | cons o t ih =>
    cases o with
    | none => exact absurd h (by simp [buildLabelDb])
    | some p =>
      unfold buildLabelDb at h
      cases hdb : buildLabelDb t with
      | error e => rw [hdb] at h; exact absurd h (by simp)
      | ok db' =>
        rw [hdb] at h
        obtain rfl : (p.id, p.label) :: db' = db := by injection h
        simp [ih db' hdb]

/-- Claim C3 (status: corrected; this is the counterexample to the claim as
stated). In TRAIN mode, the vector passed as `labels` to `train_svm` is
`[pixel.id for ...]`, the region ids — not the per-region majority
ground-truth labels: the single surviving region `spA` has id 3 and
ground-truth label 7, and the trained-on vector is [3], not [7]. -/
theorem c3_trained_on_ids_counterexample :
    spA.id = 3 ∧ spA.label = 7 ∧
    mosaicLabelsOf [some spA] = [3] ∧
    ([some spA].filterMap (fun o => o)).map SuperPixel.label = [7] ∧
    ([3] : List Nat) ≠ [7] :=
  ⟨rfl, rfl, rfl, rfl, by decide⟩

/-- Claim C3 as amended (status: corrected). In TRAIN mode the classifier is
trained on the preprocessed feature matrix paired with the surviving regions'
ids; the ground-truth majority labels are instead stored in the persisted
id→label dictionary (which maps each region id to its majority label) and are
applied to predicted ids downstream at inference. -/
theorem c3_trains_on_region_ids (sps : List (Option SuperPixel))
    (fm : List (List Rat)) (ids : List Nat) (db : List (Nat × Nat))
    (h : formatMosaicData sps = .ok (fm, ids, db)) :
    ids = (sps.filterMap (fun o => o)).map SuperPixel.id ∧
    db = (sps.filterMap (fun o => o)).map (fun p => (p.id, p.label)) := by
  unfold formatMosaicData at h
  cases hdb : buildLabelDb sps with
  | error e => rw [hdb] at h; exact absurd h (by simp)
  | ok db' =>
    rw [hdb] at h
    simp only [Except.ok.injEq, Prod.mk.injEq] at h
    obtain ⟨-, hids, hdb2⟩ := h
    refine ⟨?_, ?_⟩
    · rw [← hids]; exact mosaicLabelsOf_eq sps
    · rw [← hdb2]; exact buildLabelDb_ok sps db' hdb

/-- Witness for C3's amended theorem at a concrete batch of one surviving
region. -/
theorem c3_trains_on_region_ids_witness :
    ([3] : List Nat) = ([some spA].filterMap (fun o => o)).map SuperPixel.id ∧
    ([(3, 7)] : List (Nat × Nat)) =
      ([some spA].filterMap (fun o => o)).map (fun p => (p.id, p.label)) :=
  c3_trains_on_region_ids [some spA] [[]] [3] [(3, 7)] rfl

/-- An all-zero grayscale image of the canonical size (used only to express
"the hog length determined by the canonical size"). -/
def blankGray (sz : Nat × Nat) : Img2 := { h := sz.2, w := sz.1, pix := fun _ _ => 0 }

lemma processImg_gray_dims (lib : Lib) (src : NDImg) (bd : Bounds)
    (sz : Nat × Nat) (theta : Int) :
    (lib.toGray (processImg lib src bd sz theta)).h = sz.2 ∧
    (lib.toGray (processImg lib src bd sz theta)).w = sz.1 := by
  unfold processImg
  exact ⟨by rw [lib.toGray_h, lib.rotate_h, lib.resize_h],
    by rw [lib.toGray_w, lib.rotate_w, lib.resize_w]⟩

lemma npHistogramCounts_length (vals : List Nat) (bins lo hi : Nat) :
    (npHistogramCounts vals bins lo hi).length = bins := by
  simp [npHistogramCounts]

lemma histNormed_length (vals : List Nat) (bins lo hi : Nat) :
    (histNormed vals bins lo hi).length = bins := by
  simp only [histNormed]
  rw [List.length_map, npHistogramCounts_length]

lemma channelHist_length (img : NDImg) (k : Nat) :
    (channelHist img k).length = 64 := by
  simp only [channelHist]
  rw [npHistogramCounts_length]

lemma perAngleFeatures_length (lib : Lib) (src : NDImg) (bd : Bounds)
    (sz : Nat × Nat) (theta : Int) :
    (perAngleFeatures lib src bd sz theta).length =
      (lib.hog (blankGray sz)).length +
      (imgMax (lib.lbp (lib.toGray (processImg lib src bd sz theta))) + 1) + 192 := by
  have hd := processImg_gray_dims lib src bd sz theta
  have hh := lib.hog_len (lib.toGray (processImg lib src bd sz theta)) (blankGray sz)
    (by rw [hd.1]; rfl) (by rw [hd.2]; rfl)
  unfold perAngleFeatures
  simp only [List.length_append, List.length_map, histNormed_length,
    channelHist_length, hh]

/-- Claim C4 as amended (status: corrected). Each successfully built region
yields exactly one feature vector: the concatenation, in angle order
-40, -20, 0, 20, 40, of per-angle sub-vectors, each being the texture (hog)
descriptor followed by the local-pattern histogram followed by the three
per-channel 64-bin color histograms. The texture length is determined by the
canonical size alone, and each color block contributes 192 entries, but the
local-pattern histogram has `int(lbp.max()) + 1` bins — a quantity that
depends on the processed patch's content — so the total length is
5·hogLen + Σ_angles (lbpMax+1) + 960 and is NOT determined by the canonical
size and descriptor configuration alone. -/
theorem c4_feature_vector_structure (lib : Lib) (src : NDImg) (bd : Bounds)
    (sz : Nat × Nat) :
    generateFeatures lib src bd sz =
      (angles.map (perAngleFeatures lib src bd sz)).flatten ∧
    (∀ theta ∈ angles, (perAngleFeatures lib src bd sz theta).length =
      (lib.hog (blankGray sz)).length +
      (imgMax (lib.lbp (lib.toGray (processImg lib src bd sz theta))) + 1) + 192) ∧
    (generateFeatures lib src bd sz).length =
      5 * (lib.hog (blankGray sz)).length +
      ((angles.map fun theta =>
        imgMax (lib.lbp (lib.toGray (processImg lib src bd sz theta))) + 1).sum) +
      960 := by
  refine ⟨rfl, fun theta _ => perAngleFeatures_length lib src bd sz theta, ?_⟩
  unfold generateFeatures
  rw [List.length_flatten]
  simp only [List.map_map, angles, List.map_cons, List.map_nil, List.sum_cons,
    List.sum_nil, Function.comp]
  simp only [perAngleFeatures_length]
  omega

/-- Claim C4 (status: corrected; this is the counterexample to the claim as
stated). Two regions built under the same canonical size (2, 2) and the same
descriptor configuration, differing only in source-image content (`srcA` is
all 1s, `srcB` is all 9s), get feature vectors of different lengths (970 vs
1010): the local-binary-pattern histogram's bin count `int(lbp.max()) + 1`
is content-dependent. -/
theorem c4_constant_length_counterexample :
    (mkSuperPixel lib0 1 srcA (some lblA) maskA (2, 2)).isOk = true ∧
    (mkSuperPixel lib0 1 srcB (some lblA) maskA (2, 2)).isOk = true ∧
    featLenOf (mkSuperPixel lib0 1 srcA (some lblA) maskA (2, 2)) = 970 ∧
    featLenOf (mkSuperPixel lib0 1 srcB (some lblA) maskA (2, 2)) = 1010 ∧
    (970 : Nat) ≠ 1010 := by
  refine ⟨by decide, by decide, ?_, ?_, by decide⟩
  · set_option maxRecDepth 100000 in decide
  · set_option maxRecDepth 100000 in decide

/-- Claim C8 (status: corrected; this is the counterexample to the claim as
stated). A TRAIN (`filemode.WRITE`) invocation of `main` is not terminal
after persisting the model: the "Setup args" / "Classify" sections of `main`
(lines 61-75) sit after the mode branch and run unconditionally, so per-image
classification (segmentation, prediction, mask painting) does occur. -/
theorem c8_train_mode_classifies :
    Phase.classifyImages ∈ mainPhases Mode.write := by decide

/-- Claim C8 as amended (status: corrected). A TRAIN-mode invocation performs
segment mosaic → feature extraction with ground truth → preprocessor fit →
persist info → model training → persist model, and then proceeds to the
per-image classification pass (per-image segmentation, prediction, and mask
painting) before terminating. -/
theorem c8_train_phase_order :
    mainPhases Mode.write =
      [Phase.readMosaic, Phase.readImages, Phase.segmentMosaic,
       Phase.extractFeatures, Phase.fitPreprocessor, Phase.saveInfo,
       Phase.trainModel, Phase.saveModel, Phase.setupArgs,
       Phase.classifyImages] := rfl
